import Mathlib

/-!
Shallow embedding of the financial document pipeline of `sales/models.py`
(Deal → Proposal → Contract → Invoice → Payment).

Monetary values are Django `DecimalField`s (fixed-point decimals). All
arithmetic performed on them by this module (addition, subtraction,
multiplication, division by the literal 100) is exact decimal arithmetic,
so we embed money as `ℚ`. Quantities are `PositiveIntegerField`s, embedded
as `ℕ`. Columns that play no role in the verified logic (dates, notes,
file uploads, audit fields, foreign keys to users) are omitted; foreign
keys to catalog rows (`Service`, `Package`) are embedded by inlining the
referenced row, and row ids used by `SET_NULL` back-references are `ℕ`.

Python truthiness is embedded explicitly: a `Decimal` is falsy exactly
when it equals 0, a string is falsy exactly when it is empty, an optional
is falsy exactly when it is `None`.
-/

abbrev Money := ℚ

/-- Catalog row `services.models.Service` (read-only price source). -/
structure Service where
  name : String
  base_price : Option Money
deriving Repr, DecidableEq

/-- Catalog row `services.models.Package` (read-only price source). -/
structure Package where
  name : String
  total_price : Option Money
deriving Repr, DecidableEq

/-- Enum `InvoiceStatus` of `sales/models.py`. -/
inductive InvoiceStatus where
  | draft
  | issued
  | partially_paid
  | paid
  | overdue
  | cancelled
deriving Repr, DecidableEq

/-- The `Invoice` row: the fields read or written by the verified logic.
`deal` is the id of the referenced `Deal` row (`None` while unset). -/
structure Invoice where
  deal : Option Nat
  number : String
  status : InvoiceStatus
  subtotal : Money
  tax : Money
  total : Money
  amount_paid : Money
deriving Repr, DecidableEq

/-- The `InvoiceItem` row (its `contract_item` back-reference is not read
by any verified operation and is omitted). -/
structure InvoiceItem where
  description : String
  quantity : Nat
  unit_price : Money
  tax_rate : Money
  line_subtotal : Money
  tax_amount : Money
  line_total : Money
deriving Repr, DecidableEq

/-- The derived-field computation inside `InvoiceItem.save`:
`base_total = unit * qty`, `tax_amount = base_total * rate / 100`,
`line_subtotal`, `tax_amount`, `line_total` assigned from them. -/
def InvoiceItem.compute_totals (it : InvoiceItem) : InvoiceItem :=
  let qty : Nat := it.quantity
  let unit : Money := it.unit_price
  let rate : Money := it.tax_rate
  let base_total := unit * qty
  let tax_amount := (base_total * rate) / 100
  { it with
      line_subtotal := base_total
      tax_amount := tax_amount
      line_total := base_total + tax_amount }

/-- `Invoice.recalculate_totals`: aggregate `Sum` of `line_subtotal`,
`tax_amount`, `line_total` over the invoice's items (`None or 0.00` for an
empty aggregate equals the empty sum). -/
def Invoice.recalculate_totals (inv : Invoice) (items : List InvoiceItem) : Invoice :=
  { inv with
      subtotal := (items.map (·.line_subtotal)).sum
      tax := (items.map (·.tax_amount)).sum
      total := (items.map (·.line_total)).sum }

/-- An invoice together with its `items` related set. -/
structure InvoiceState where
  invoice : Invoice
  items : List InvoiceItem
deriving Repr, DecidableEq

/-- Message raised by `InvoiceItem.clean` when the parent invoice is not
in draft. -/
def invoice_item_lock_msg : String :=
  "Cannot modify invoice items after invoice is issued."

/-- Message raised by `InvoiceItem.delete` when the parent invoice is not
in draft. -/
def invoice_item_delete_lock_msg : String :=
  "Cannot delete invoice items after invoice is issued."

/-- `InvoiceItem.save` for a new row: `full_clean` (which raises the lock
error when `invoice.status != draft`), derived-field computation, insert,
then `invoice.recalculate_totals`. -/
def invoice_item_create (st : InvoiceState) (it : InvoiceItem) :
    Except String InvoiceState :=
  if st.invoice.status ≠ InvoiceStatus.draft then
    .error invoice_item_lock_msg
  else
    let it := it.compute_totals
    let items := st.items ++ [it]
    .ok { invoice := st.invoice.recalculate_totals items, items := items }

/-- `InvoiceItem.save` for an existing row at position `i`: same clean,
computation and recalculation, the row updated in place. -/
def invoice_item_update (st : InvoiceState) (i : Nat) (it : InvoiceItem) :
    Except String InvoiceState :=
  if st.invoice.status ≠ InvoiceStatus.draft then
    .error invoice_item_lock_msg
  else
    let it := it.compute_totals
    let items := st.items.set i it
    .ok { invoice := st.invoice.recalculate_totals items, items := items }

/-- `InvoiceItem.delete` for the row at position `i`: lock check, row
removal, then `invoice.recalculate_totals`. -/
def invoice_item_delete (st : InvoiceState) (i : Nat) :
    Except String InvoiceState :=
  if st.invoice.status ≠ InvoiceStatus.draft then
    .error invoice_item_delete_lock_msg
  else
    let items := st.items.eraseIdx i
    .ok { invoice := st.invoice.recalculate_totals items, items := items }

/-- A raised `ValidationError` aborts the transaction: the database keeps
its pre-attempt state. -/
def InvoiceState.attempt (st : InvoiceState) (r : Except String InvoiceState) :
    InvoiceState :=
  match r with
  | .ok st' => st'
  | .error _ => st

/-- The `Payment` row: the only column the verified logic reads is
`amount` (`date`, `method`, `payment_type`, `reference` are inert). -/
structure Payment where
  amount : Money
deriving Repr, DecidableEq

/-- An invoice together with its `payments` related set. -/
structure PaymentLedger where
  invoice : Invoice
  payments : List Payment
deriving Repr, DecidableEq

/-- Aggregate `Sum("amount")` over a payment queryset (`or 0` for the
empty aggregate equals the empty sum). -/
def payments_total (ps : List Payment) : Money :=
  (ps.map (·.amount)).sum

/-- Message raised by `Payment.clean` on overpayment (the interpolated
remaining amount is dropped). -/
def payment_overpay_msg : String :=
  "Payment exceeds remaining balance."

/-- `Payment.clean`: `already_paid` is the sum of the invoice's payments
excluding the one under edit, `remaining = invoice.total - already_paid`,
and the amount is rejected when it exceeds `remaining`. -/
def payment_clean (invoice_total : Money) (others : List Payment)
    (amount : Money) : Except String Unit :=
  let already_paid := payments_total others
  let remaining := invoice_total - already_paid
  if amount > remaining then .error payment_overpay_msg else .ok ()

/-- `Payment._update_invoice_amount_paid`: recompute `amount_paid` from
all payments, then `status := paid` when `invoice.total` is truthy and
`amount_paid >= total`, else `partially_paid` when `0 < amount_paid <
total`, else leave `status` as is. -/
def update_invoice_amount_paid (invoice : Invoice) (payments : List Payment) :
    Invoice :=
  let total_paid := payments_total payments
  let invoice := { invoice with amount_paid := total_paid }
  if invoice.total ≠ 0 ∧ invoice.amount_paid ≥ invoice.total then
    { invoice with status := InvoiceStatus.paid }
  else if invoice.amount_paid > 0 ∧ invoice.amount_paid < invoice.total then
    { invoice with status := InvoiceStatus.partially_paid }
  else
    invoice

/-- `Payment.save` for a new payment: `full_clean` (whose `clean` sees all
existing payments as "others"), insert, then
`_update_invoice_amount_paid`. -/
def payment_create (st : PaymentLedger) (p : Payment) :
    Except String PaymentLedger :=
  match payment_clean st.invoice.total st.payments p.amount with
  | .error e => .error e
  | .ok _ =>
    let payments := st.payments ++ [p]
    .ok { invoice := update_invoice_amount_paid st.invoice payments
          payments := payments }

/-- `Payment.save` for the existing payment at position `i`: `clean`
excludes the row itself (`exclude(pk=self.pk)`), the row is updated in
place, then `_update_invoice_amount_paid`. -/
def payment_update (st : PaymentLedger) (i : Nat) (p : Payment) :
    Except String PaymentLedger :=
  match payment_clean st.invoice.total (st.payments.eraseIdx i) p.amount with
  | .error e => .error e
  | .ok _ =>
    let payments := st.payments.set i p
    .ok { invoice := update_invoice_amount_paid st.invoice payments
          payments := payments }

/-- `Payment.delete` for the payment at position `i`: remove the row, then
re-derive `amount_paid` and `status` by the inline copy of the same
recomputation (lines 833-847 of the source). There is no validation. -/
def payment_delete (st : PaymentLedger) (i : Nat) : PaymentLedger :=
  let payments := st.payments.eraseIdx i
  let invoice := st.invoice
  let total_paid := payments_total payments
  let invoice := { invoice with amount_paid := total_paid }
  let invoice :=
    if invoice.total ≠ 0 ∧ invoice.amount_paid ≥ invoice.total then
      { invoice with status := InvoiceStatus.paid }
    else if invoice.amount_paid > 0 ∧ invoice.amount_paid < invoice.total then
      { invoice with status := InvoiceStatus.partially_paid }
    else
      invoice
  { invoice := invoice, payments := payments }

/-- One user-level operation on the payment ledger of a fixed invoice. -/
inductive PaymentOp where
  | create (p : Payment)
  | update (i : Nat) (p : Payment)
  | delete (i : Nat)
deriving Repr, DecidableEq

/-- Run one payment operation; a rejected save (a raised
`ValidationError`) leaves the database unchanged. -/
def apply_payment_op (st : PaymentLedger) : PaymentOp → PaymentLedger
  | .create p =>
    match payment_create st p with
    | .ok st' => st'
    | .error _ => st
  | .update i p =>
    match payment_update st i p with
    | .ok st' => st'
    | .error _ => st
  | .delete i => payment_delete st i

/-- Run a sequence of payment operations. -/
def apply_payment_ops (st : PaymentLedger) (ops : List PaymentOp) :
    PaymentLedger :=
  ops.foldl apply_payment_op st

/-- The amounts a payment operation writes (none for a delete). -/
def PaymentOp.amounts : PaymentOp → List Money
  | .create p => [p.amount]
  | .update _ p => [p.amount]
  | .delete _ => []

/-- The `Proposal` row: the monetary fields the verified logic touches. -/
structure Proposal where
  subtotal : Money
  discount : Money
  tax : Money
  total : Money
deriving Repr, DecidableEq

/-- The `ProposalItem` row, with the referenced catalog rows inlined. -/
structure ProposalItem where
  service : Option Service
  package : Option Package
  description : String
  quantity : Nat
  unit_price : Money
  line_total : Money
deriving Repr, DecidableEq

/-- The field-filling part of `ProposalItem.save`: auto description from
the linked service/package when empty, auto unit price from the catalog
when falsy, then `line_total = unit_price * quantity`. -/
def ProposalItem.save_fill (it : ProposalItem) : ProposalItem :=
  let description :=
    if it.description = "" then
      match it.service with
      | some s => s.name
      | none =>
        match it.package with
        | some p => p.name
        | none => it.description
    else it.description
  let unit_price :=
    if it.unit_price = 0 then
      match it.service with
      | some s => s.base_price.getD 0
      | none =>
        match it.package with
        | some p => p.total_price.getD 0
        | none => it.unit_price
    else it.unit_price
  { it with
      description := description
      unit_price := unit_price
      line_total := unit_price * it.quantity }

/-- `Proposal.recalculate_totals`: `subtotal` is the aggregate sum of
`line_total` over the items (`or 0.00` for the empty aggregate), and
`total = subtotal - discount + tax`, floored at 0. -/
def Proposal.recalculate_totals (p : Proposal) (items : List ProposalItem) :
    Proposal :=
  let subtotal := (items.map (·.line_total)).sum
  let discount := p.discount
  let tax := p.tax
  let total := subtotal - discount + tax
  let total := if total < 0 then (0 : Money) else total
  { p with subtotal := subtotal, total := total }

/-- The `ContractItem` row; `proposal_item` is the id of the originating
`ProposalItem` row (`SET_NULL` on its deletion), and the catalog
references are inlined as for `ProposalItem`. -/
structure ContractItem where
  proposal_item : Option Nat
  service : Option Service
  package : Option Package
  description : String
  quantity : Nat
  unit_price : Money
  line_total : Money
deriving Repr, DecidableEq

/-- The field-filling part of `ContractItem.save`: auto description from
service / package / originating proposal item when empty, auto unit price
from the same chain when falsy, then `line_total = unit_price * quantity`.
`pit` is the row currently referenced by `proposal_item` (if any). -/
def ContractItem.save_fill (pit : Option ProposalItem) (it : ContractItem) :
    ContractItem :=
  let description :=
    if it.description = "" then
      match it.service with
      | some s => s.name
      | none =>
        match it.package with
        | some p => p.name
        | none =>
          match pit with
          | some q => q.description
          | none => it.description
    else it.description
  let unit_price :=
    if it.unit_price = 0 then
      match it.service with
      | some s => s.base_price.getD 0
      | none =>
        match it.package with
        | some p => p.total_price.getD 0
        | none =>
          match pit with
          | some q => q.unit_price
          | none => it.unit_price
    else it.unit_price
  { it with
      description := description
      unit_price := unit_price
      line_total := unit_price * it.quantity }

/-- The per-item body of `Contract.populate_from_proposal`:
`ContractItem.objects.create(...)` copying `service`, `package`,
`description`, `quantity`, `unit_price` from the proposal item `pr.2`
(whose row id is `pr.1`), which runs `ContractItem.save` on the fresh
row. -/
def Contract.copy_item (pr : Nat × ProposalItem) : ContractItem :=
  ContractItem.save_fill (some pr.2)
    { proposal_item := some pr.1
      service := pr.2.service
      package := pr.2.package
      description := pr.2.description
      quantity := pr.2.quantity
      unit_price := pr.2.unit_price
      line_total := 0 }

/-- `Contract.populate_from_proposal`: optionally delete the contract's
existing items, then create one copied `ContractItem` per `ProposalItem`
of the source proposal. (Setting the contract's back-reference to the
proposal does not touch any item and is omitted.) -/
def Contract.populate_from_proposal (citems : List ContractItem)
    (pitems : List (Nat × ProposalItem)) (clear_existing : Bool) :
    List ContractItem :=
  let base := if clear_existing then [] else citems
  base ++ pitems.map Contract.copy_item

/-- The proposal-item rows (with their ids) and the contract-item rows
relevant to copy independence. -/
structure CopyState where
  pitems : List (Nat × ProposalItem)
  citems : List ContractItem
deriving Repr, DecidableEq

/-- A user-level mutation of a `ProposalItem`: `save` re-runs the filling
logic of `ProposalItem.save` on the edited row, `del` is
`ProposalItem.delete`. -/
inductive PItemOp where
  | save (pk : Nat) (row : ProposalItem)
  | del (pk : Nat)
deriving Repr, DecidableEq

/-- Run one proposal-item mutation. `ProposalItem.save` writes only the
proposal-item row (and the parent proposal's totals); `ProposalItem.delete`
removes the row, and the database `SET_NULL`s the `proposal_item` column of
every contract item that referenced it. -/
def apply_pitem_op (s : CopyState) : PItemOp → CopyState
  | .save pk row =>
    { s with
        pitems := s.pitems.map
          (fun pr => if pr.1 = pk then (pk, row.save_fill) else pr) }
  | .del pk =>
    { pitems := s.pitems.filter (fun pr => pr.1 ≠ pk)
      citems := s.citems.map
        (fun c =>
          if c.proposal_item = some pk then { c with proposal_item := none }
          else c) }

/-- The columns of a `ContractItem` that copy independence is about. -/
def ContractItem.copy_fields (c : ContractItem) : String × Nat × Money × Money :=
  (c.description, c.quantity, c.unit_price, c.line_total)

/-- The item-creation part of `Invoice.populate_from_contract`: optional
bulk queryset delete of the existing items (which does not go through
`InvoiceItem.delete` and so performs no draft check), one
`InvoiceItem.objects.create` per contract item with `tax_rate = 0` (each
running the guarded `InvoiceItem.save`), then a final
`recalculate_totals`. -/
def invoice_populate_items (st : InvoiceState) (citems : List ContractItem)
    (clear_existing : Bool) : Except String InvoiceState :=
  let st := if clear_existing then { st with items := [] } else st
  match citems.foldlM
      (fun s c =>
        invoice_item_create s
          { description := c.description
            quantity := c.quantity
            unit_price := c.unit_price
            tax_rate := 0
            line_subtotal := 0
            tax_amount := 0
            line_total := 0 }) st with
  | .error e => .error e
  | .ok st' =>
    .ok { st' with invoice := st'.invoice.recalculate_totals st'.items }

/-- `Invoice.populate_from_contract`: reject when the invoice's deal is
set and differs from the contract's; adopt the contract's deal when the
invoice's is unset; then clear/copy/recalculate as in
`invoice_populate_items`. -/
def invoice_populate_from_contract (st : InvoiceState) (contract_deal : Nat)
    (citems : List ContractItem) (clear_existing : Bool) :
    Except String InvoiceState :=
  match st.invoice.deal with
  | some d =>
    if contract_deal ≠ d then .error "Invoice.deal must match Contract.deal."
    else invoice_populate_items st citems clear_existing
  | none =>
    invoice_populate_items
      { st with invoice := { st.invoice with deal := some contract_deal } }
      citems clear_existing

/-!
Sequenced-document numbering. Numbers are strings; the database's
lexicographic collation, Python's `str.replace`, `int` and zero-padded
formatting are embedded below on the character lists of the strings.
-/

/-- Whether the first character list is an initial segment of the second
(`startswith`). -/
def leadsWith : List Char → List Char → Bool
  | [], _ => true
  | _ :: _, [] => false
  | a :: as, b :: bs => a = b && leadsWith as bs

/-- Django `number__startswith=pre`. -/
def strStarts (pre s : String) : Bool :=
  leadsWith pre.data s.data

/-- Strict lexicographic character-list order (the order the database
sorts `number` by). -/
def lexLtCh : List Char → List Char → Bool
  | [], [] => false
  | [], _ :: _ => true
  | _ :: _, [] => false
  | a :: as, b :: bs => a < b || (a = b && lexLtCh as bs)

/-- Strict lexicographic string order. -/
def strLt (a b : String) : Bool :=
  lexLtCh a.data b.data

/-- `order_by("-number").first()` over a queryset: the lexicographically
greatest element, `None` when empty. -/
def lexMax? : List String → Option String
  | [] => none
  | s :: rest => some (rest.foldl (fun a b => if strLt a b then b else a) s)

/-- Python `str.replace` on character lists (nonempty pattern): scan left
to right, replacing each non-overlapping occurrence of `pat` by `rep`. -/
def replList (pat rep : List Char) : List Char → List Char
  | [] => []
  | c :: cs =>
    if pat ≠ [] ∧ leadsWith pat (c :: cs) = true then
      rep ++ replList pat rep (List.drop (pat.length - 1) cs)
    else
      c :: replList pat rep cs
termination_by l => l.length
decreasing_by
  · simp only [List.length_drop, List.length_cons]
    omega
  · simp

/-- Python `last.number.replace(pre, rep)`. -/
def str_replace (s pre rep : String) : String :=
  String.mk (replList pre.data rep.data s.data)

/-- Whether `pat` occurs as a contiguous sublist. -/
def occursIn (pat : List Char) : List Char → Bool
  | [] => leadsWith pat []
  | c :: cs => leadsWith pat (c :: cs) || occursIn pat cs

/-- The decimal value of a nonempty all-digit character list, `none`
otherwise. -/
def digitsNat? (cs : List Char) : Option Nat :=
  if cs = [] then none
  else
    cs.foldl
      (fun acc c =>
        match acc with
        | none => none
        | some n => if c.isDigit then some (n * 10 + (c.toNat - 48)) else none)
      (some 0)

/-- Python `int(s)` on the strings this pipeline can store: surrounding
whitespace stripped, an optional sign, then decimal digits; `none` models
the raised `ValueError`. (Underscore digit grouping and non-ASCII digits,
which CPython also accepts, never occur in a `number` column.) -/
def pyInt? (s : String) : Option Int :=
  let cs := (s.data.dropWhile (·.isWhitespace)).reverse.dropWhile
    (·.isWhitespace) |>.reverse
  match cs with
  | '-' :: rest => (digitsNat? rest).map (fun n => -(n : Int))
  | '+' :: rest => (digitsNat? rest).map (fun n => (n : Int))
  | rest => (digitsNat? rest).map (fun n => (n : Int))

/-- Zero padding of a digit list to width `w`. -/
def pad_zeros (w : Nat) (cs : List Char) : List Char :=
  List.replicate (w - cs.length) '0' ++ cs

/-- Python `f"{n:0(pad)d}"`: zero-padded decimal rendering of an integer,
the sign counting toward the width. -/
def int_pad (pad : Nat) (n : Int) : String :=
  if n < 0 then String.mk ('-' :: pad_zeros (pad - 1) (Nat.toDigits 10 n.natAbs))
  else String.mk (pad_zeros pad (Nat.toDigits 10 n.toNat))

/-- `Contract._generate_next_number` / `Invoice._generate_next_number`
(they differ only in `CODE_PREFIX`): take the lexicographically greatest
stored number starting with `pre`, strip `pre` from it with `str.replace`,
parse the rest with `int` defaulting to 0 on `ValueError` (and to 0 when
no such record exists or its number is falsy), and render `pre` followed
by the successor zero-padded to `pad` digits. -/
def generate_next_number (pre : String) (pad : Nat) (numbers : List String) :
    String :=
  let cands := numbers.filter (fun s => strStarts pre s)
  let n : Int :=
    match lexMax? cands with
    | none => 0
    | some last =>
      if last ≠ "" then (pyInt? (str_replace last pre "")).getD 0 else 0
  pre ++ int_pad pad (n + 1)

/-- Modelled from the spec's words ("parse its numeric suffix"): as
`generate_next_number`, but the suffix is what follows the leading `pre`,
rather than the result of replacing every occurrence of `pre`. -/
def spec_next_number (pre : String) (pad : Nat) (numbers : List String) :
    String :=
  let cands := numbers.filter (fun s => strStarts pre s)
  let n : Int :=
    match lexMax? cands with
    | none => 0
    | some last =>
      if last ≠ "" then (pyInt? (String.mk (last.data.drop pre.data.length))).getD 0
      else 0
  pre ++ int_pad pad (n + 1)

/-- The bounded retry loop of `Contract.save` / `Invoice.save` for a
record without a number. Each entry of `dbs` is the set of `number`
values visible to one attempt (concurrent writers may commit between
attempts); the unique column rejects an insert of an existing value
(`IntegrityError`), upon which the number is cleared and the next attempt
generates afresh. An empty `dbs` is the exhausted loop: the save raises. -/
def save_number_attempts (pre : String) (pad : Nat) (fail_msg : String) :
    List (List String) → Except String (String × List String)
  | [] => .error fail_msg
  | db :: rest =>
    let n := generate_next_number pre pad db
    if n ∈ db then save_number_attempts pre pad fail_msg rest
    else .ok (n, db ++ [n])

/-- `Contract.save` number allocation: `CODE_PREFIX = "CTR"`,
`CODE_PAD = 3`, up to 10 attempts. -/
def Contract.save_allocate (dbs : List (List String)) :
    Except String (String × List String) :=
  save_number_attempts "CTR" 3
    "Could not generate unique Contract number after retries." (dbs.take 10)

/-- `Invoice.save` number allocation: `CODE_PREFIX = "INV"`,
`CODE_PAD = 3`, up to 10 attempts. -/
def Invoice.save_allocate (dbs : List (List String)) :
    Except String (String × List String) :=
  save_number_attempts "INV" 3
    "Could not generate unique Invoice number after retries." (dbs.take 10)

/-- The number-immutability head of `Contract.save` / `Invoice.save`: for
an existing row, when the stored number is truthy and the in-memory one
differs, the in-memory value is overridden back to the stored one.
`stored` is `none` for a row not yet in the database. -/
def document_save_number (stored : Option String) (inmem : String) : String :=
  match stored with
  | some old => if old ≠ "" ∧ inmem ≠ old then old else inmem
  | none => inmem

/-- A whole `Contract.save` / `Invoice.save` as far as the `number` column
is concerned: immutability override, then either a direct save of a truthy
number or the retry-allocation loop. Returns the number the row is
persisted with. -/
def document_save (stored : Option String) (inmem : String) (pre : String)
    (pad : Nat) (fail_msg : String) (dbs : List (List String)) :
    Except String String :=
  let n := document_save_number stored inmem
  if n ≠ "" then .ok n
  else (save_number_attempts pre pad fail_msg (dbs.take 10)).map (fun r => r.1)

/-!
Theorems. Each claim Cn of the specification gets one theorem below;
helper lemmas are shared.
-/

/-- C4: `Proposal.recalculate_totals` sets `subtotal` to the sum of the
items' `line_total` and `total` to `max 0 (subtotal - discount + tax)`;
in particular a proposal with items (qty 2 at unit price 100, qty 1 at
unit price 50), discount 10 and tax 0 gets subtotal 250 and total 240. -/
theorem C4_proposal_totals :
    (∀ (p : Proposal) (items : List ProposalItem),
      (p.recalculate_totals items).subtotal = (items.map (·.line_total)).sum ∧
      (p.recalculate_totals items).discount = p.discount ∧
      (p.recalculate_totals items).tax = p.tax ∧
      (p.recalculate_totals items).total
        = max 0 ((items.map (·.line_total)).sum - p.discount + p.tax))
    ∧
    ((Proposal.recalculate_totals ⟨0, 10, 0, 0⟩
        [ProposalItem.save_fill
          ⟨some ⟨"Photography", some 100⟩, none, "", 2, 100, 0⟩,
         ProposalItem.save_fill
          ⟨some ⟨"Editing", some 50⟩, none, "", 1, 50, 0⟩]).subtotal = 250
     ∧ (Proposal.recalculate_totals ⟨0, 10, 0, 0⟩
        [ProposalItem.save_fill
          ⟨some ⟨"Photography", some 100⟩, none, "", 2, 100, 0⟩,
         ProposalItem.save_fill
          ⟨some ⟨"Editing", some 50⟩, none, "", 1, 50, 0⟩]).total = 240) := by
  constructor
  · intro p items
    refine ⟨rfl, rfl, rfl, ?_⟩
    show (if _ < 0 then _ else _) = _
    rcases le_or_lt 0 ((items.map (·.line_total)).sum - p.discount + p.tax)
      with h | h
    · rw [if_neg (not_lt.mpr h), max_eq_right h]
    · rw [if_pos h, max_eq_left (le_of_lt h)]
  · constructor <;>
      norm_num [Proposal.recalculate_totals, ProposalItem.save_fill]

/-- C5: `InvoiceItem.save` sets `line_subtotal = unit_price * quantity`,
`tax_amount = line_subtotal * tax_rate / 100`, `line_total =
line_subtotal + tax_amount`, and the invoice's recalculated
subtotal/tax/total are the sums of those fields over its items; in
particular a draft invoice whose only item has qty 3, unit price 40 and
tax rate 5 ends with line 120 / 6 / 126 and invoice total 126. -/
theorem C5_invoice_line_math :
    (∀ it : InvoiceItem,
      (it.compute_totals).line_subtotal = it.unit_price * it.quantity ∧
      (it.compute_totals).tax_amount
        = (it.unit_price * it.quantity) * it.tax_rate / 100 ∧
      (it.compute_totals).line_total
        = (it.compute_totals).line_subtotal + (it.compute_totals).tax_amount)
    ∧ (∀ (inv : Invoice) (items : List InvoiceItem),
        (inv.recalculate_totals items).subtotal
          = (items.map (·.line_subtotal)).sum ∧
        (inv.recalculate_totals items).tax = (items.map (·.tax_amount)).sum ∧
        (inv.recalculate_totals items).total = (items.map (·.line_total)).sum)
    ∧ (let st := InvoiceState.attempt
          ⟨⟨some 1, "INV001", InvoiceStatus.draft, 0, 0, 0, 0⟩, []⟩
          (invoice_item_create
            ⟨⟨some 1, "INV001", InvoiceStatus.draft, 0, 0, 0, 0⟩, []⟩
            ⟨"Videography", 3, 40, 5, 0, 0, 0⟩)
       st.items.map (·.line_subtotal) = [120] ∧
       st.items.map (·.tax_amount) = [6] ∧
       st.items.map (·.line_total) = [126] ∧
       st.invoice.subtotal = 120 ∧
       st.invoice.tax = 6 ∧
       st.invoice.total = 126) := by
  refine ⟨fun it => ⟨rfl, rfl, rfl⟩, fun inv items => ⟨rfl, rfl, rfl⟩, ?_⟩
  norm_num [InvoiceState.attempt, invoice_item_create,
    InvoiceItem.compute_totals, Invoice.recalculate_totals]

/-- C3: once the parent invoice's status is not draft, `InvoiceItem.save`
(create or update) and `InvoiceItem.delete` are rejected with a
validation error and the database — in particular the invoice's
aggregate fields — is unchanged by the attempt. -/
theorem C3_invoice_item_locking :
    ∀ (st : InvoiceState) (it : InvoiceItem) (i : Nat),
      st.invoice.status ≠ InvoiceStatus.draft →
      invoice_item_create st it = .error invoice_item_lock_msg ∧
      invoice_item_update st i it = .error invoice_item_lock_msg ∧
      invoice_item_delete st i = .error invoice_item_delete_lock_msg ∧
      InvoiceState.attempt st (invoice_item_create st it) = st ∧
      InvoiceState.attempt st (invoice_item_update st i it) = st ∧
      InvoiceState.attempt st (invoice_item_delete st i) = st := by
  intro st it i h
  simp [invoice_item_create, invoice_item_update, invoice_item_delete,
    InvoiceState.attempt, h]

/-- Witness for C3 at a concrete issued invoice. -/
theorem C3_invoice_item_locking_witness :
    (InvoiceState.mk ⟨some 1, "INV002", InvoiceStatus.issued, 100, 0, 100, 0⟩
        [⟨"Album", 1, 100, 0, 100, 0, 100⟩]).invoice.status
      ≠ InvoiceStatus.draft ∧
    (invoice_item_create
        ⟨⟨some 1, "INV002", InvoiceStatus.issued, 100, 0, 100, 0⟩,
         [⟨"Album", 1, 100, 0, 100, 0, 100⟩]⟩
        ⟨"Extra", 1, 10, 0, 0, 0, 0⟩ = .error invoice_item_lock_msg ∧
      invoice_item_update
        ⟨⟨some 1, "INV002", InvoiceStatus.issued, 100, 0, 100, 0⟩,
         [⟨"Album", 1, 100, 0, 100, 0, 100⟩]⟩ 0
        ⟨"Extra", 1, 10, 0, 0, 0, 0⟩ = .error invoice_item_lock_msg ∧
      invoice_item_delete
        ⟨⟨some 1, "INV002", InvoiceStatus.issued, 100, 0, 100, 0⟩,
         [⟨"Album", 1, 100, 0, 100, 0, 100⟩]⟩ 0
        = .error invoice_item_delete_lock_msg ∧
      InvoiceState.attempt
        ⟨⟨some 1, "INV002", InvoiceStatus.issued, 100, 0, 100, 0⟩,
         [⟨"Album", 1, 100, 0, 100, 0, 100⟩]⟩
        (invoice_item_create
          ⟨⟨some 1, "INV002", InvoiceStatus.issued, 100, 0, 100, 0⟩,
           [⟨"Album", 1, 100, 0, 100, 0, 100⟩]⟩
          ⟨"Extra", 1, 10, 0, 0, 0, 0⟩)
        = ⟨⟨some 1, "INV002", InvoiceStatus.issued, 100, 0, 100, 0⟩,
           [⟨"Album", 1, 100, 0, 100, 0, 100⟩]⟩ ∧
      InvoiceState.attempt
        ⟨⟨some 1, "INV002", InvoiceStatus.issued, 100, 0, 100, 0⟩,
         [⟨"Album", 1, 100, 0, 100, 0, 100⟩]⟩
        (invoice_item_update
          ⟨⟨some 1, "INV002", InvoiceStatus.issued, 100, 0, 100, 0⟩,
           [⟨"Album", 1, 100, 0, 100, 0, 100⟩]⟩ 0
          ⟨"Extra", 1, 10, 0, 0, 0, 0⟩)
        = ⟨⟨some 1, "INV002", InvoiceStatus.issued, 100, 0, 100, 0⟩,
           [⟨"Album", 1, 100, 0, 100, 0, 100⟩]⟩ ∧
      InvoiceState.attempt
        ⟨⟨some 1, "INV002", InvoiceStatus.issued, 100, 0, 100, 0⟩,
         [⟨"Album", 1, 100, 0, 100, 0, 100⟩]⟩
        (invoice_item_delete
          ⟨⟨some 1, "INV002", InvoiceStatus.issued, 100, 0, 100, 0⟩,
           [⟨"Album", 1, 100, 0, 100, 0, 100⟩]⟩ 0)
        = ⟨⟨some 1, "INV002", InvoiceStatus.issued, 100, 0, 100, 0⟩,
           [⟨"Album", 1, 100, 0, 100, 0, 100⟩]⟩) :=
  ⟨by simp,
   C3_invoice_item_locking
     ⟨⟨some 1, "INV002", InvoiceStatus.issued, 100, 0, 100, 0⟩,
      [⟨"Album", 1, 100, 0, 100, 0, 100⟩]⟩
     ⟨"Extra", 1, 10, 0, 0, 0, 0⟩ 0 (by simp)⟩

/-- C7: once a Contract or Invoice number is assigned (stored non-empty),
any later save whose in-memory number differs is overridden back to the
stored value, so the persisted number never changes. -/
theorem C7_number_immutability :
    ∀ (stored inmem pre fail_msg : String) (pad : Nat)
      (dbs : List (List String)),
      stored ≠ "" →
      document_save_number (some stored) inmem = stored ∧
      document_save (some stored) inmem pre pad fail_msg dbs = .ok stored := by
  intro stored inmem pre fail_msg pad dbs h
  have hn : document_save_number (some stored) inmem = stored := by
    by_cases he : inmem = stored
    · simp [document_save_number, he]
    · simp [document_save_number, h, he]
  refine ⟨hn, ?_⟩
  simp [document_save, hn, h]

/-- Witness for C7: re-saving a contract stored as CTR005 with the number
tampered to CTR999 persists CTR005. -/
theorem C7_number_immutability_witness :
    ("CTR005" : String) ≠ "" ∧
    document_save_number (some "CTR005") "CTR999" = "CTR005" ∧
    document_save (some "CTR005") "CTR999" "CTR" 3 "fail" [] = .ok "CTR005" :=
  ⟨by simp,
   (C7_number_immutability "CTR005" "CTR999" "CTR" "fail" 3 [] (by simp)).1,
   (C7_number_immutability "CTR005" "CTR999" "CTR" "fail" 3 [] (by simp)).2⟩

/-- C10: `Invoice.populate_from_contract` with `clear_existing = True` on
a non-draft invoice of the same deal as an item-less contract deletes all
the invoice's items through the bulk queryset delete (no draft check) and
recalculates the totals to zero without error, while a direct
`InvoiceItem.delete` on the same invoice is rejected. -/
theorem C10_populate_bypasses_lock :
    ∀ (st : InvoiceState) (d : Nat) (i : Nat),
      st.invoice.status ≠ InvoiceStatus.draft →
      st.invoice.deal = some d →
      invoice_populate_from_contract st d [] true
        = .ok ⟨{ st.invoice with subtotal := 0, tax := 0, total := 0 }, []⟩ ∧
      invoice_item_delete st i = .error invoice_item_delete_lock_msg := by
  intro st d i hs hd
  constructor
  · simp [invoice_populate_from_contract, hd, invoice_populate_items,
      Invoice.recalculate_totals, pure, Except.pure]
  · simp [invoice_item_delete, hs]

/-- Witness for C10 at a concrete issued invoice holding one item. -/
theorem C10_populate_bypasses_lock_witness :
    (InvoiceState.mk ⟨some 7, "INV003", InvoiceStatus.issued, 100, 0, 100, 0⟩
        [⟨"Album", 1, 100, 0, 100, 0, 100⟩]).invoice.status
      ≠ InvoiceStatus.draft ∧
    (InvoiceState.mk ⟨some 7, "INV003", InvoiceStatus.issued, 100, 0, 100, 0⟩
        [⟨"Album", 1, 100, 0, 100, 0, 100⟩]).invoice.deal = some 7 ∧
    (invoice_populate_from_contract
        ⟨⟨some 7, "INV003", InvoiceStatus.issued, 100, 0, 100, 0⟩,
         [⟨"Album", 1, 100, 0, 100, 0, 100⟩]⟩ 7 [] true
      = .ok ⟨⟨some 7, "INV003", InvoiceStatus.issued, 0, 0, 0, 0⟩, []⟩ ∧
     invoice_item_delete
        ⟨⟨some 7, "INV003", InvoiceStatus.issued, 100, 0, 100, 0⟩,
         [⟨"Album", 1, 100, 0, 100, 0, 100⟩]⟩ 0
      = .error invoice_item_delete_lock_msg) :=
  ⟨by simp, rfl,
   C10_populate_bypasses_lock
     ⟨⟨some 7, "INV003", InvoiceStatus.issued, 100, 0, 100, 0⟩,
      [⟨"Album", 1, 100, 0, 100, 0, 100⟩]⟩ 7 0 (by simp) rfl⟩

/-- C9 (amended): `Payment` validation does not require `amount > 0`; a
payment of any amount — zero or negative included — is accepted and
persisted whenever it does not exceed the invoice's remaining balance,
and it is rejected exactly when it exceeds the remaining balance. -/
theorem C9_payment_amount_validation :
    ∀ (st : PaymentLedger) (p : Payment),
      (p.amount ≤ st.invoice.total - payments_total st.payments →
        payment_create st p
          = .ok ⟨update_invoice_amount_paid st.invoice (st.payments ++ [p]),
                 st.payments ++ [p]⟩) ∧
      (payment_create st p = .error payment_overpay_msg
        ↔ st.invoice.total - payments_total st.payments < p.amount) := by
  intro st p
  constructor
  · intro h
    simp [payment_create, payment_clean, not_lt.mpr h]
  · rcases lt_or_le (st.invoice.total - payments_total st.payments) p.amount
      with h | h
    · simp [payment_create, payment_clean, h]
    · simp [payment_create, payment_clean, not_lt.mpr h]

/-- Witness for C9: a payment of -5 against an empty ledger of an invoice
with total 100 is within the remaining balance and is persisted. -/
theorem C9_payment_amount_validation_witness :
    (Payment.mk (-5)).amount
      ≤ (PaymentLedger.mk ⟨none, "INV001", InvoiceStatus.issued, 100, 0, 100, 0⟩
          []).invoice.total
        - payments_total (PaymentLedger.mk
            ⟨none, "INV001", InvoiceStatus.issued, 100, 0, 100, 0⟩ []).payments ∧
    payment_create
        ⟨⟨none, "INV001", InvoiceStatus.issued, 100, 0, 100, 0⟩, []⟩ ⟨-5⟩
      = .ok ⟨update_invoice_amount_paid
              ⟨none, "INV001", InvoiceStatus.issued, 100, 0, 100, 0⟩
              ([] ++ [⟨-5⟩]), [] ++ [⟨-5⟩]⟩ :=
  ⟨by norm_num [payments_total],
   (C9_payment_amount_validation
      ⟨⟨none, "INV001", InvoiceStatus.issued, 100, 0, 100, 0⟩, []⟩ ⟨-5⟩).1
     (by norm_num [payments_total])⟩

/-- Counterexample to C9 as stated: a zero-amount payment (and a negative
one) on an invoice with total 100 passes validation and is persisted,
rather than being rejected. -/
theorem C9_counterexample :
    payment_create
        ⟨⟨none, "INV001", InvoiceStatus.issued, 100, 0, 100, 0⟩, []⟩ ⟨0⟩
      = .ok ⟨⟨none, "INV001", InvoiceStatus.issued, 100, 0, 100, 0⟩, [⟨0⟩]⟩
    ∧ payment_create
        ⟨⟨none, "INV001", InvoiceStatus.issued, 100, 0, 100, 0⟩, []⟩ ⟨-5⟩
      = .ok ⟨⟨none, "INV001", InvoiceStatus.issued, 100, 0, 100, -5⟩, [⟨-5⟩]⟩ := by
  constructor <;>
    norm_num [payment_create, payment_clean, payments_total,
      update_invoice_amount_paid]


lemma update_invoice_amount_paid_amount (inv : Invoice) (ps : List Payment) :
    (update_invoice_amount_paid inv ps).amount_paid = payments_total ps := by
  unfold update_invoice_amount_paid
  dsimp only
  split_ifs <;> rfl

lemma update_invoice_amount_paid_total (inv : Invoice) (ps : List Payment) :
    (update_invoice_amount_paid inv ps).total = inv.total := by
  unfold update_invoice_amount_paid
  dsimp only
  split_ifs <;> rfl

lemma update_invoice_amount_paid_status (inv : Invoice) (ps : List Payment) :
    (update_invoice_amount_paid inv ps).status
      = (if inv.total ≠ 0 ∧ payments_total ps ≥ inv.total then
          InvoiceStatus.paid
        else if payments_total ps > 0 ∧ payments_total ps < inv.total then
          InvoiceStatus.partially_paid
        else inv.status) := by
  unfold update_invoice_amount_paid
  dsimp only
  split_ifs <;> rfl

lemma update_invoice_amount_paid_idem (inv : Invoice) (ps : List Payment) :
    update_invoice_amount_paid (update_invoice_amount_paid inv ps) ps
      = update_invoice_amount_paid inv ps := by
  have ha := update_invoice_amount_paid_amount inv ps
  have ht := update_invoice_amount_paid_total inv ps
  have hs := update_invoice_amount_paid_status inv ps
  rw [← ht] at hs
  generalize hu : update_invoice_amount_paid inv ps = u at ha ht hs ⊢
  rcases u with ⟨d0, n0, s0, sb0, tx0, t0, a0⟩
  dsimp only at ha ht hs
  subst ha
  unfold update_invoice_amount_paid
  dsimp only
  split_ifs with h1 h2
  · simp_all
  · simp_all
    rw [if_neg (by rintro ⟨-, h⟩; exact absurd h (not_le.mpr h2.2))]
  · simp_all

/-- C6 (amended): every `Payment` save and delete recomputes the parent
invoice's `amount_paid` as the full (hence idempotent) sum of its
payments, then sets the status to `paid` when the total is nonzero
(truthy) and `amount_paid >= total`, to `partially_paid` when
`0 < amount_paid < total`, and otherwise leaves it unchanged. -/
theorem C6_payment_status_derivation :
    (∀ (inv : Invoice) (ps : List Payment),
      (update_invoice_amount_paid inv ps).amount_paid = payments_total ps ∧
      (update_invoice_amount_paid inv ps).total = inv.total ∧
      (inv.total ≠ 0 → inv.total ≤ payments_total ps →
        (update_invoice_amount_paid inv ps).status = InvoiceStatus.paid) ∧
      (0 < payments_total ps → payments_total ps < inv.total →
        (update_invoice_amount_paid inv ps).status
          = InvoiceStatus.partially_paid) ∧
      (¬ (inv.total ≠ 0 ∧ inv.total ≤ payments_total ps) →
        ¬ (0 < payments_total ps ∧ payments_total ps < inv.total) →
        (update_invoice_amount_paid inv ps).status = inv.status) ∧
      update_invoice_amount_paid (update_invoice_amount_paid inv ps) ps
        = update_invoice_amount_paid inv ps)
    ∧ (∀ (st : PaymentLedger) (p : Payment) (st' : PaymentLedger),
        payment_create st p = .ok st' →
        st' = ⟨update_invoice_amount_paid st.invoice (st.payments ++ [p]),
               st.payments ++ [p]⟩)
    ∧ (∀ (st : PaymentLedger) (i : Nat) (p : Payment) (st' : PaymentLedger),
        payment_update st i p = .ok st' →
        st' = ⟨update_invoice_amount_paid st.invoice (st.payments.set i p),
               st.payments.set i p⟩)
    ∧ (∀ (st : PaymentLedger) (i : Nat),
        payment_delete st i
          = ⟨update_invoice_amount_paid st.invoice (st.payments.eraseIdx i),
             st.payments.eraseIdx i⟩) := by
  refine ⟨fun inv ps => ⟨update_invoice_amount_paid_amount inv ps,
      update_invoice_amount_paid_total inv ps, ?_, ?_, ?_,
      update_invoice_amount_paid_idem inv ps⟩, ?_, ?_, fun st i => ?_⟩
  · intro h1 h2
    rw [update_invoice_amount_paid_status, if_pos ⟨h1, h2⟩]
  · intro h1 h2
    rw [update_invoice_amount_paid_status,
      if_neg (by rintro ⟨-, h⟩; exact absurd h (not_le.mpr h2)),
      if_pos ⟨h1, h2⟩]
  · intro h1 h2
    rw [update_invoice_amount_paid_status, if_neg h1, if_neg h2]
  · intro st p st' h
    unfold payment_create payment_clean at h
    dsimp only at h
    split_ifs at h with hb
    exact (Except.ok.inj h).symm
  · intro st i p st' h
    unfold payment_update payment_clean at h
    dsimp only at h
    split_ifs at h with hb
    exact (Except.ok.inj h).symm
  · unfold payment_delete update_invoice_amount_paid
    rfl

/-- Witness for C6 at the spec's scenario: invoice total 500, a payment
of 300 yields `partially_paid`, a further 200 yields `paid`. -/
theorem C6_payment_status_derivation_witness :
    (0 : Money) < payments_total [⟨300⟩] ∧
    payments_total [(⟨300⟩ : Payment)]
      < (Invoice.mk none "INV004" InvoiceStatus.issued 500 0 500 0).total ∧
    (update_invoice_amount_paid
        ⟨none, "INV004", InvoiceStatus.issued, 500, 0, 500, 0⟩
        [⟨300⟩]).status = InvoiceStatus.partially_paid ∧
    (Invoice.mk none "INV004" InvoiceStatus.issued 500 0 500 0).total ≠ 0 ∧
    (Invoice.mk none "INV004" InvoiceStatus.issued 500 0 500 0).total
      ≤ payments_total [(⟨300⟩ : Payment), ⟨200⟩] ∧
    (update_invoice_amount_paid
        ⟨none, "INV004", InvoiceStatus.issued, 500, 0, 500, 0⟩
        [⟨300⟩, ⟨200⟩]).status = InvoiceStatus.paid :=
  ⟨by norm_num [payments_total], by norm_num [payments_total],
   (C6_payment_status_derivation.1
      ⟨none, "INV004", InvoiceStatus.issued, 500, 0, 500, 0⟩
      [⟨300⟩]).2.2.2.1
     (by norm_num [payments_total]) (by norm_num [payments_total]),
   by norm_num, by norm_num [payments_total],
   (C6_payment_status_derivation.1
      ⟨none, "INV004", InvoiceStatus.issued, 500, 0, 500, 0⟩
      [⟨300⟩, ⟨200⟩]).2.2.1
     (by norm_num) (by norm_num [payments_total])⟩

/-- Counterexample to C6 as stated: on an invoice with total 0 a saved
zero-amount payment leaves `amount_paid = 0 ≥ total`, yet the status is
left `issued` instead of being set to `paid` (the code's Python
truthiness test `if invoice.total` skips a zero total). -/
theorem C6_counterexample :
    payment_create
        ⟨⟨none, "INV005", InvoiceStatus.issued, 0, 0, 0, 0⟩, []⟩ ⟨0⟩
      = .ok ⟨⟨none, "INV005", InvoiceStatus.issued, 0, 0, 0, 0⟩, [⟨0⟩]⟩ ∧
    (update_invoice_amount_paid
        ⟨none, "INV005", InvoiceStatus.issued, 0, 0, 0, 0⟩ [⟨0⟩]).amount_paid
      ≥ (update_invoice_amount_paid
        ⟨none, "INV005", InvoiceStatus.issued, 0, 0, 0, 0⟩ [⟨0⟩]).total ∧
    (update_invoice_amount_paid
        ⟨none, "INV005", InvoiceStatus.issued, 0, 0, 0, 0⟩ [⟨0⟩]).status
      ≠ InvoiceStatus.paid := by
  refine ⟨?_, ?_, ?_⟩
  · norm_num [payment_create, payment_clean, payments_total,
      update_invoice_amount_paid]
  · norm_num [payments_total, update_invoice_amount_paid]
  · norm_num [payments_total, update_invoice_amount_paid]
    decide

lemma payments_total_cons (p : Payment) (l : List Payment) :
    payments_total (p :: l) = p.amount + payments_total l := by
  simp [payments_total]

lemma payments_total_append (l : List Payment) (p : Payment) :
    payments_total (l ++ [p]) = payments_total l + p.amount := by
  simp [payments_total]

lemma payments_total_set (l : List Payment) (i : Nat) (p : Payment)
    (h : i < l.length) :
    payments_total (l.set i p) = payments_total (l.eraseIdx i) + p.amount := by
  induction l generalizing i with
  | nil => simp at h
  | cons x xs ih =>
    cases i with
    | zero =>
      simp [payments_total_cons]
      ring
    | succ j =>
      have hj : j < xs.length := by simpa using h
      simp [payments_total_cons, ih j hj]
      ring

lemma payments_total_eraseIdx_le (l : List Payment) (i : Nat)
    (h : ∀ q ∈ l, 0 ≤ q.amount) :
    payments_total (l.eraseIdx i) ≤ payments_total l := by
  induction l generalizing i with
  | nil => simp
  | cons x xs ih =>
    cases i with
    | zero =>
      have := h x (by simp)
      simp [payments_total_cons]
      linarith
    | succ j =>
      have := ih j (fun q hq => h q (by simp [hq]))
      simp [payments_total_cons]
      linarith

lemma payment_create_ok (st : PaymentLedger) (p : Payment)
    (st' : PaymentLedger) (h : payment_create st p = .ok st') :
    st' = ⟨update_invoice_amount_paid st.invoice (st.payments ++ [p]),
           st.payments ++ [p]⟩ ∧
    p.amount ≤ st.invoice.total - payments_total st.payments := by
  unfold payment_create payment_clean at h
  dsimp only at h
  split_ifs at h with hb
  exact ⟨(Except.ok.inj h).symm, not_lt.mp hb⟩

lemma payment_update_ok (st : PaymentLedger) (i : Nat) (p : Payment)
    (st' : PaymentLedger) (h : payment_update st i p = .ok st') :
    st' = ⟨update_invoice_amount_paid st.invoice (st.payments.set i p),
           st.payments.set i p⟩ ∧
    p.amount ≤ st.invoice.total - payments_total (st.payments.eraseIdx i) := by
  unfold payment_update payment_clean at h
  dsimp only at h
  split_ifs at h with hb
  exact ⟨(Except.ok.inj h).symm, not_lt.mp hb⟩

lemma payment_delete_eq (st : PaymentLedger) (i : Nat) :
    payment_delete st i
      = ⟨update_invoice_amount_paid st.invoice (st.payments.eraseIdx i),
         st.payments.eraseIdx i⟩ := by
  unfold payment_delete update_invoice_amount_paid
  rfl

lemma apply_payment_op_invariant (st : PaymentLedger) (op : PaymentOp)
    (hsum : payments_total st.payments ≤ st.invoice.total)
    (hnn : ∀ q ∈ st.payments, 0 ≤ q.amount)
    (hop : ∀ a ∈ op.amounts, 0 ≤ a) :
    payments_total (apply_payment_op st op).payments
      ≤ (apply_payment_op st op).invoice.total ∧
    (∀ q ∈ (apply_payment_op st op).payments, 0 ≤ q.amount) := by
  cases op with
  | create p =>
    have hp : 0 ≤ p.amount := hop p.amount (by simp [PaymentOp.amounts])
    have hrw : apply_payment_op st (.create p)
        = match payment_create st p with
          | .ok st' => st'
          | .error _ => st := rfl
    rcases hE : payment_create st p with e | st'
    · rw [hrw, hE]
      exact ⟨hsum, hnn⟩
    · obtain ⟨rfl, hle⟩ := payment_create_ok st p st' hE
      rw [hrw, hE]
      dsimp only
      refine ⟨?_, ?_⟩
      · rw [update_invoice_amount_paid_total, payments_total_append]
        linarith
      · intro q hq
        rcases List.mem_append.mp hq with hq | hq
        · exact hnn q hq
        · rw [List.mem_singleton.mp hq]
          exact hp
  | update i p =>
    have hp : 0 ≤ p.amount := hop p.amount (by simp [PaymentOp.amounts])
    have hrw : apply_payment_op st (.update i p)
        = match payment_update st i p with
          | .ok st' => st'
          | .error _ => st := rfl
    rcases hE : payment_update st i p with e | st'
    · rw [hrw, hE]
      exact ⟨hsum, hnn⟩
    · obtain ⟨rfl, hle⟩ := payment_update_ok st i p st' hE
      rw [hrw, hE]
      dsimp only
      have hmem : ∀ q ∈ st.payments.set i p, 0 ≤ q.amount := by
        intro q hq
        rcases List.mem_or_eq_of_mem_set hq with hq | rfl
        · exact hnn q hq
        · exact hp
      refine ⟨?_, hmem⟩
      rw [update_invoice_amount_paid_total]
      by_cases hi : i < st.payments.length
      · rw [payments_total_set _ _ _ hi]
        linarith
      · rw [List.set_eq_of_length_le (le_of_not_lt hi)]
        exact hsum
  | delete i =>
    have hrw : apply_payment_op st (.delete i) = payment_delete st i := rfl
    rw [hrw, payment_delete_eq]
    dsimp only
    refine ⟨?_, ?_⟩
    · rw [update_invoice_amount_paid_total]
      exact le_trans (payments_total_eraseIdx_le st.payments i hnn) hsum
    · intro q hq
      exact hnn q (List.mem_of_mem_eraseIdx hq)

lemma apply_payment_ops_invariant (ops : List PaymentOp) (st : PaymentLedger)
    (hsum : payments_total st.payments ≤ st.invoice.total)
    (hnn : ∀ q ∈ st.payments, 0 ≤ q.amount)
    (hops : ∀ op ∈ ops, ∀ a ∈ op.amounts, 0 ≤ a) :
    payments_total (apply_payment_ops st ops).payments
      ≤ (apply_payment_ops st ops).invoice.total := by
  induction ops generalizing st with
  | nil => exact hsum
  | cons op ops ih =>
    have step := apply_payment_op_invariant st op hsum hnn
      (hops op (by simp))
    have : apply_payment_ops st (op :: ops)
        = apply_payment_ops (apply_payment_op st op) ops := rfl
    rw [this]
    exact ih _ step.1 step.2 (fun o ho => hops o (by simp [ho]))

/-- C1 (amended): provided every payment amount written (and every
pre-existing one) is nonnegative — positivity not being enforced by the
code, see C9 — the sum of an invoice's payment amounts stays at most the
invoice's total across any sequence of payment creates, updates and
deletes; and `Payment.clean` computes `already_paid` as the sum of the
other payments, `remaining = total - already_paid`, and rejects without
persisting any payment whose amount exceeds `remaining`. -/
theorem C1_no_overpayment :
    (∀ (st : PaymentLedger) (ops : List PaymentOp),
      payments_total st.payments ≤ st.invoice.total →
      (∀ q ∈ st.payments, 0 ≤ q.amount) →
      (∀ op ∈ ops, ∀ a ∈ op.amounts, 0 ≤ a) →
      payments_total (apply_payment_ops st ops).payments
        ≤ (apply_payment_ops st ops).invoice.total)
    ∧ (∀ (st : PaymentLedger) (p : Payment),
        st.invoice.total - payments_total st.payments < p.amount →
        payment_create st p = .error payment_overpay_msg ∧
        apply_payment_op st (.create p) = st)
    ∧ (∀ (st : PaymentLedger) (i : Nat) (p : Payment),
        st.invoice.total - payments_total (st.payments.eraseIdx i) < p.amount →
        payment_update st i p = .error payment_overpay_msg ∧
        apply_payment_op st (.update i p) = st) := by
  refine ⟨fun st ops => apply_payment_ops_invariant ops st, ?_, ?_⟩
  · intro st p h
    have he : payment_create st p = .error payment_overpay_msg := by
      unfold payment_create payment_clean
      dsimp only
      rw [if_pos h]
    refine ⟨he, ?_⟩
    have hrw : apply_payment_op st (.create p)
        = match payment_create st p with
          | .ok st' => st'
          | .error _ => st := rfl
    rw [hrw, he]
  · intro st i p h
    have he : payment_update st i p = .error payment_overpay_msg := by
      unfold payment_update payment_clean
      dsimp only
      rw [if_pos h]
    refine ⟨he, ?_⟩
    have hrw : apply_payment_op st (.update i p)
        = match payment_update st i p with
          | .ok st' => st'
          | .error _ => st := rfl
    rw [hrw, he]

/-- Witness for C1: on an invoice with total 100, creating payments of 60
and 40 and then deleting the first keeps the payment sum within the
total. -/
theorem C1_no_overpayment_witness :
    payments_total (PaymentLedger.mk
        ⟨none, "INV001", InvoiceStatus.issued, 100, 0, 100, 0⟩ []).payments
      ≤ (PaymentLedger.mk
        ⟨none, "INV001", InvoiceStatus.issued, 100, 0, 100, 0⟩ []).invoice.total ∧
    payments_total (apply_payment_ops
        ⟨⟨none, "INV001", InvoiceStatus.issued, 100, 0, 100, 0⟩, []⟩
        [.create ⟨60⟩, .create ⟨40⟩, .delete 0]).payments
      ≤ (apply_payment_ops
        ⟨⟨none, "INV001", InvoiceStatus.issued, 100, 0, 100, 0⟩, []⟩
        [.create ⟨60⟩, .create ⟨40⟩, .delete 0]).invoice.total :=
  ⟨by norm_num [payments_total],
   C1_no_overpayment.1
     ⟨⟨none, "INV001", InvoiceStatus.issued, 100, 0, 100, 0⟩, []⟩
     [.create ⟨60⟩, .create ⟨40⟩, .delete 0]
     (by norm_num [payments_total])
     (by simp [payments_total])
     (by intro op hop a ha
         fin_cases hop <;> simp_all [PaymentOp.amounts])⟩

/-- Counterexample to C1 as stated: total 100; accept 100, accept -50
(within remaining 0), accept 50 (within remaining 50), then delete the
-50 payment — the payment sum becomes 150 > 100. -/
theorem C1_counterexample :
    payments_total (apply_payment_ops
        ⟨⟨none, "INV001", InvoiceStatus.issued, 100, 0, 100, 0⟩, []⟩
        [.create ⟨100⟩, .create ⟨-50⟩, .create ⟨50⟩, .delete 1]).payments = 150 ∧
    (apply_payment_ops
        ⟨⟨none, "INV001", InvoiceStatus.issued, 100, 0, 100, 0⟩, []⟩
        [.create ⟨100⟩, .create ⟨-50⟩, .create ⟨50⟩, .delete 1]).invoice.total
      = 100 ∧
    ¬ payments_total (apply_payment_ops
        ⟨⟨none, "INV001", InvoiceStatus.issued, 100, 0, 100, 0⟩, []⟩
        [.create ⟨100⟩, .create ⟨-50⟩, .create ⟨50⟩, .delete 1]).payments
      ≤ (apply_payment_ops
        ⟨⟨none, "INV001", InvoiceStatus.issued, 100, 0, 100, 0⟩, []⟩
        [.create ⟨100⟩, .create ⟨-50⟩, .create ⟨50⟩, .delete 1]).invoice.total := by
  refine ⟨?_, ?_, ?_⟩ <;>
    norm_num [apply_payment_ops, apply_payment_op, payment_create,
      payment_clean, payment_delete, payments_total,
      update_invoice_amount_paid]

lemma copy_fields_of_set_null (c : ContractItem) (pk : Nat) :
    ContractItem.copy_fields
        (if c.proposal_item = some pk then { c with proposal_item := none }
         else c)
      = ContractItem.copy_fields c := by
  split_ifs <;> rfl

/-- C8: `populate_from_proposal` creates one `ContractItem` per
`ProposalItem`, copying service/package references and description,
quantity, unit price (values equal to the saved proposal item's, which is
a fixed point of the `ProposalItem.save` filling); the copies are
independent rows, and later `ProposalItem` saves or deletes leave every
contract item's description, quantity, unit price and line total
unchanged. -/
theorem C8_copy_independence :
    (∀ pr : Nat × ProposalItem,
      pr.2.save_fill = pr.2 →
      (Contract.copy_item pr).proposal_item = some pr.1 ∧
      (Contract.copy_item pr).service = pr.2.service ∧
      (Contract.copy_item pr).package = pr.2.package ∧
      (Contract.copy_item pr).description = pr.2.description ∧
      (Contract.copy_item pr).quantity = pr.2.quantity ∧
      (Contract.copy_item pr).unit_price = pr.2.unit_price ∧
      (Contract.copy_item pr).line_total = pr.2.line_total)
    ∧ (∀ (citems : List ContractItem) (pitems : List (Nat × ProposalItem))
        (clear_existing : Bool),
        Contract.populate_from_proposal citems pitems clear_existing
          = (if clear_existing then [] else citems)
            ++ pitems.map Contract.copy_item)
    ∧ (∀ (s : CopyState) (ops : List PItemOp),
        (ops.foldl apply_pitem_op s).citems.map ContractItem.copy_fields
          = s.citems.map ContractItem.copy_fields) := by
  refine ⟨fun pr h => ?_, fun citems pitems clear_existing => rfl,
    fun s ops => ?_⟩
  · exact ⟨rfl, rfl, rfl,
      congrArg ProposalItem.description h,
      rfl,
      congrArg ProposalItem.unit_price h,
      congrArg ProposalItem.line_total h⟩
  · induction ops generalizing s with
    | nil => rfl
    | cons op ops ih =>
      have hfold : (op :: ops).foldl apply_pitem_op s
          = ops.foldl apply_pitem_op (apply_pitem_op s op) := rfl
      rw [hfold, ih]
      cases op with
      | save pk row => rfl
      | del pk =>
        dsimp only [apply_pitem_op]
        rw [List.map_map]
        exact List.map_congr_left (fun c _ => copy_fields_of_set_null c pk)

/-- Witness for C8: a saved proposal item (qty 2 at 100 for the
Photography service) is copied with equal fields, and a mutation plus a
delete of proposal items leave the copy's fields untouched. -/
theorem C8_copy_independence_witness :
    (ProposalItem.mk (some ⟨"Photography", some 100⟩) none "Photography"
        2 100 200).save_fill
      = ProposalItem.mk (some ⟨"Photography", some 100⟩) none "Photography"
        2 100 200 ∧
    (Contract.copy_item
        (3, ⟨some ⟨"Photography", some 100⟩, none, "Photography", 2, 100, 200⟩)
      ).description = "Photography" ∧
    (Contract.copy_item
        (3, ⟨some ⟨"Photography", some 100⟩, none, "Photography", 2, 100, 200⟩)
      ).quantity = 2 ∧
    (Contract.copy_item
        (3, ⟨some ⟨"Photography", some 100⟩, none, "Photography", 2, 100, 200⟩)
      ).unit_price = 100 ∧
    (Contract.copy_item
        (3, ⟨some ⟨"Photography", some 100⟩, none, "Photography", 2, 100, 200⟩)
      ).line_total = 200 ∧
    ([PItemOp.save 3 ⟨none, none, "Edited", 9, 1, 9⟩, PItemOp.del 3].foldl
        apply_pitem_op
        ⟨[(3, ⟨some ⟨"Photography", some 100⟩, none, "Photography", 2, 100, 200⟩)],
         [Contract.copy_item
           (3, ⟨some ⟨"Photography", some 100⟩, none, "Photography", 2, 100, 200⟩)]⟩
      ).citems.map ContractItem.copy_fields
      = [Contract.copy_item
          (3, ⟨some ⟨"Photography", some 100⟩, none, "Photography", 2, 100, 200⟩)
        ].map ContractItem.copy_fields := by
  have hfix : (ProposalItem.mk (some ⟨"Photography", some 100⟩) none
      "Photography" 2 100 200).save_fill
      = ProposalItem.mk (some ⟨"Photography", some 100⟩) none "Photography"
        2 100 200 := by
    norm_num [ProposalItem.save_fill]
  have h := C8_copy_independence.1
    (3, ⟨some ⟨"Photography", some 100⟩, none, "Photography", 2, 100, 200⟩) hfix
  exact ⟨hfix, h.2.2.2.1, h.2.2.2.2.1, h.2.2.2.2.2.1, h.2.2.2.2.2.2,
    C8_copy_independence.2.2
      ⟨[(3, ⟨some ⟨"Photography", some 100⟩, none, "Photography", 2, 100, 200⟩)],
       [Contract.copy_item
         (3, ⟨some ⟨"Photography", some 100⟩, none, "Photography", 2, 100, 200⟩)]⟩
      [PItemOp.save 3 ⟨none, none, "Edited", 9, 1, 9⟩, PItemOp.del 3]⟩

lemma foldl_strLt_mem (l : List String) (a : String) :
    l.foldl (fun x y => if strLt x y then y else x) a ∈ a :: l := by
  induction l generalizing a with
  | nil => simp
  | cons b bs ih =>
    simp only [List.foldl_cons]
    rcases List.mem_cons.mp (ih (if strLt a b then b else a)) with h | h
    · rw [h]
      split_ifs <;> simp
    · simp [h]

lemma lexMax?_mem {l : List String} {s : String} (h : lexMax? l = some s) :
    s ∈ l := by
  cases l with
  | nil => simp [lexMax?] at h
  | cons x xs =>
    have hx : xs.foldl (fun a b => if strLt a b then b else a) x = s := by
      simpa [lexMax?] using h
    rw [← hx]
    exact foldl_strLt_mem xs x

lemma leadsWith_append (pat t : List Char) :
    leadsWith pat (pat ++ t) = true := by
  induction pat with
  | nil => rfl
  | cons c cs ih => simp [leadsWith, ih]

lemma leadsWith_drop {a b : List Char} (h : leadsWith a b = true) :
    b = a ++ b.drop a.length := by
  induction a generalizing b with
  | nil => simp
  | cons c cs ih =>
    cases b with
    | nil => simp [leadsWith] at h
    | cons d ds =>
      simp only [leadsWith, Bool.and_eq_true, decide_eq_true_eq] at h
      obtain ⟨h1, h2⟩ := h
      subst h1
      simp only [List.length_cons, List.drop_succ_cons, List.cons_append]
      exact congrArg (c :: ·) (ih h2)

lemma replList_of_not_occurs {pat : List Char} (rep : List Char)
    {t : List Char} (h : occursIn pat t = false) :
    replList pat rep t = t := by
  induction t with
  | nil => simp [replList]
  | cons c cs ih =>
    rw [occursIn, Bool.or_eq_false_iff] at h
    rw [replList, if_neg (by simp [h.1])]
    exact congrArg (c :: ·) (ih h.2)

lemma replList_append_self {pat : List Char} (rep : List Char)
    (hp : pat ≠ []) (t : List Char) :
    replList pat rep (pat ++ t) = rep ++ replList pat rep t := by
  cases pat with
  | nil => exact absurd rfl hp
  | cons p ps =>
    have hl : leadsWith (p :: ps) (p :: (ps ++ t)) = true := by
      simpa using leadsWith_append (p :: ps) t
    simp only [List.cons_append]
    rw [replList, if_pos ⟨by simp, hl⟩]
    congr 1
    rw [show (p :: ps).length - 1 = ps.length by simp, List.drop_left]

lemma str_replace_strip {pre last : String} (hp : pre.data ≠ [])
    (hs : strStarts pre last = true)
    (ho : occursIn pre.data (last.data.drop pre.data.length) = false) :
    str_replace last pre ""
      = String.mk (last.data.drop pre.data.length) := by
  unfold str_replace
  have hld : last.data = pre.data ++ last.data.drop pre.data.length :=
    leadsWith_drop (by simpa [strStarts] using hs)
  have hed : ("" : String).data = [] := rfl
  rw [hed]
  conv_lhs => rw [hld]
  rw [replList_append_self [] hp, replList_of_not_occurs [] ho]
  rw [List.nil_append]

lemma generate_eq_spec (pre : String) (pad : Nat) (numbers : List String)
    (hp : pre.data ≠ [])
    (H : ∀ s ∈ numbers, strStarts pre s = true →
      occursIn pre.data (s.data.drop pre.data.length) = false) :
    generate_next_number pre pad numbers = spec_next_number pre pad numbers := by
  unfold generate_next_number spec_next_number
  dsimp only
  cases hm : lexMax? (List.filter (fun s => strStarts pre s) numbers) with
  | none => rfl
  | some last =>
    dsimp only
    have hmem := List.mem_filter.mp (lexMax?_mem hm)
    have hstart : strStarts pre last = true := by simpa using hmem.2
    have ho := H last hmem.1 hstart
    rw [str_replace_strip hp hstart ho]

lemma save_number_attempts_ok {pre fail_msg : String} {pad : Nat}
    {dbs : List (List String)} {n : String} {db' : List String}
    (h : save_number_attempts pre pad fail_msg dbs = .ok (n, db')) :
    ∃ db, db ∈ dbs ∧ n ∉ db ∧ db' = db ++ [n]
      ∧ n = generate_next_number pre pad db := by
  induction dbs with
  | nil => simp [save_number_attempts] at h
  | cons db rest ih =>
    rw [save_number_attempts] at h
    split_ifs at h with hmem
    · obtain ⟨db0, h1, h2, h3, h4⟩ := ih h
      exact ⟨db0, List.mem_cons_of_mem _ h1, h2, h3, h4⟩
    · have hpair := Except.ok.inj h
      have hn : generate_next_number pre pad db = n := congrArg Prod.fst hpair
      have hdb : db ++ [generate_next_number pre pad db] = db' :=
        congrArg Prod.snd hpair
      refine ⟨db, List.mem_cons_self _ _, ?_, ?_, hn.symm⟩
      · rw [← hn]
        exact hmem
      · rw [← hdb, hn]

lemma save_number_attempts_error_iff (pre fail_msg : String) (pad : Nat)
    (dbs : List (List String)) :
    save_number_attempts pre pad fail_msg dbs = .error fail_msg ↔
      ∀ db ∈ dbs, generate_next_number pre pad db ∈ db := by
  induction dbs with
  | nil => simp [save_number_attempts]
  | cons db rest ih =>
    rw [save_number_attempts]
    split_ifs with hmem
    · simp [hmem, ih]
    · simp [hmem]

/-- C2: the generated number is the code prefix followed by one plus the
numeric suffix of the lexicographically greatest stored number with that
prefix (0 when none exists or the suffix is unparsable), zero-padded to 3
digits — on stores whose numbers carry the prefix only at their front,
the code's replace-based suffix equals the spec's strip-based one; a
successful save inserts, inside one of at most 10 attempts, a number the
unique column did not yet contain (so distinct numbers stay distinct);
and the save fails with the fatal retry error exactly when every attempt
collides. -/
theorem C2_sequenced_numbering :
    (∀ (pre : String) (pad : Nat) (numbers : List String),
      pre.data ≠ [] →
      (∀ s ∈ numbers, strStarts pre s = true →
        occursIn pre.data (s.data.drop pre.data.length) = false) →
      generate_next_number pre pad numbers = spec_next_number pre pad numbers)
    ∧ (∀ (dbs : List (List String)) (n : String) (db' : List String),
        Contract.save_allocate dbs = .ok (n, db') →
        ∃ db, db ∈ dbs.take 10 ∧ n ∉ db ∧ db' = db ++ [n]
          ∧ n = generate_next_number "CTR" 3 db ∧ (db.Nodup → db'.Nodup))
    ∧ (∀ (dbs : List (List String)) (n : String) (db' : List String),
        Invoice.save_allocate dbs = .ok (n, db') →
        ∃ db, db ∈ dbs.take 10 ∧ n ∉ db ∧ db' = db ++ [n]
          ∧ n = generate_next_number "INV" 3 db ∧ (db.Nodup → db'.Nodup))
    ∧ (∀ dbs : List (List String),
        Contract.save_allocate dbs
            = .error "Could not generate unique Contract number after retries."
          ↔ ∀ db ∈ dbs.take 10, generate_next_number "CTR" 3 db ∈ db)
    ∧ (generate_next_number "CTR" 3 [] = "CTR001"
      ∧ generate_next_number "CTR" 3 ["CTR001", "CTR002"] = "CTR003"
      ∧ generate_next_number "INV" 3 ["INV009", "INV010"] = "INV011"
      ∧ generate_next_number "CTR" 3 ["CTRX"] = "CTR001") := by
  have hok : ∀ (pre fail_msg : String) (pad : Nat)
      (dbs : List (List String)) (n : String) (db' : List String),
      save_number_attempts pre pad fail_msg (dbs.take 10) = .ok (n, db') →
      ∃ db, db ∈ dbs.take 10 ∧ n ∉ db ∧ db' = db ++ [n]
        ∧ n = generate_next_number pre pad db ∧ (db.Nodup → db'.Nodup) := by
    intro pre fail_msg pad dbs n db' h
    obtain ⟨db, h1, h2, h3, h4⟩ := save_number_attempts_ok h
    refine ⟨db, h1, h2, h3, h4, fun hnd => ?_⟩
    rw [h3]
    simp [List.nodup_append, hnd, h2]
  refine ⟨generate_eq_spec, fun dbs n db' h => hok _ _ _ dbs n db' h,
    fun dbs n db' h => hok _ _ _ dbs n db' h,
    fun dbs => save_number_attempts_error_iff _ _ _ _, ?_, ?_, ?_, ?_⟩
  · simp [generate_next_number, lexMax?, strStarts, leadsWith, str_replace,
      replList, pyInt?, digitsNat?, int_pad, pad_zeros]
    decide
  · simp [generate_next_number, lexMax?, strStarts, leadsWith, strLt, lexLtCh,
      str_replace, replList, pyInt?, digitsNat?, int_pad, pad_zeros]
    decide
  · simp [generate_next_number, lexMax?, strStarts, leadsWith, strLt, lexLtCh,
      str_replace, replList, pyInt?, digitsNat?, int_pad, pad_zeros]
    decide
  · simp [generate_next_number, lexMax?, strStarts, leadsWith, strLt, lexLtCh,
      str_replace, replList, pyInt?, digitsNat?, int_pad, pad_zeros]
    decide

/-- Witness for C2: on the store CTR001, CTR002 (prefix only at the
front of each number) the code's generator and the spec's formula agree,
and a save against that store allocates the fresh CTR003. -/
theorem C2_sequenced_numbering_witness :
    ("CTR" : String).data ≠ [] ∧
    generate_next_number "CTR" 3 ["CTR001", "CTR002"]
      = spec_next_number "CTR" 3 ["CTR001", "CTR002"] ∧
    Contract.save_allocate [["CTR001", "CTR002"]]
      = .ok ("CTR003", ["CTR001", "CTR002", "CTR003"]) :=
  ⟨by decide,
   C2_sequenced_numbering.1 "CTR" 3 ["CTR001", "CTR002"] (by decide) (by decide),
   by
    have h3 : "CTR" ++ String.mk
        (List.replicate (3 - (Nat.toDigits 10 3).length) '0'
          ++ Nat.toDigits 10 3) = "CTR003" := by decide
    simp [Contract.save_allocate, save_number_attempts, generate_next_number,
      lexMax?, strStarts, leadsWith, strLt, lexLtCh, str_replace, replList,
      pyInt?, digitsNat?, int_pad, pad_zeros, h3]⟩
